import Mathlib

/-
  Verification of the kafka-avro-helper package (src/kafka_avro_helper/producer.py,
  src/kafka_avro_helper/consumer.py) against its natural-language specification.

  The embedding is shallow: the pure byte-level computations are translated
  directly; external collaborators (the Kafka transport, the schema registry,
  UTF-8 codecs, the fastavro reader and the AvroModel parse/validate methods)
  are parameters of an `Env` record, and the observable calls made to them by
  the loop are recorded in an event trace.
-/

namespace KafkaHelper

/-- Big-endian unsigned value of a byte list, as computed by struct.unpack. -/
def beVal (l : List Nat) : Nat := l.foldl (fun a b => a * 256 + b) 0

/-- The four big-endian bytes of a 32-bit unsigned integer, as produced by
struct.pack with format >I. -/
def be4 (n : Nat) : List Nat :=
  [n / 16777216 % 256, n / 65536 % 256, n / 256 % 256, n % 256]

/-- Association-list lookup, mirroring Python dict subscript/get on an
insertion-ordered dict. -/
def alookup {α β : Type} [DecidableEq α] : List (α × β) → α → Option β
  | [], _ => none
  | p :: t, k => if p.1 = k then some p.2 else alookup t k

/-- Python dict insertion: an existing key is updated in place, a new key is
appended at the end (insertion order preserved). -/
def dinsert {α β : Type} [DecidableEq α] : List (α × β) → α → β → List (α × β)
  | [], k, v => [(k, v)]
  | p :: t, k, v => if p.1 = k then (k, v) :: t else p :: dinsert t k v

/-- Value attached to the last occurrence of a key in a pair list. -/
def lastVal {α β : Type} [DecidableEq α] : List (α × β) → α → Option β
  | [], _ => none
  | p :: t, k =>
    match lastVal t k with
    | some v => some v
    | none => if p.1 = k then some p.2 else none

/-- Modelled from the spec: to_kebab_case lives in validate.py, which is absent
from the sources; the spec fixes the rule as converting the type name to
kebab-case, lowercase words joined with hyphens, e.g. UserFeedback gives
user-feedback. -/
def to_kebab_case (s : String) : String :=
  match s.data with
  | [] => ""
  | c :: rest =>
    String.mk (c.toLower :: rest.flatMap (fun ch => if ch.isUpper then ['-', ch.toLower] else [ch]))

/-- The Python exception classes that the helper's control flow distinguishes. -/
inductive PyError
  | unicodeDecodeError
  | magicByteError
  | indexError
  | structError
  | keyError
  | registryError
  | avroDecodeError
  | parseError
  | validationError
  | notImplementedError
  | typeError
  | publishError
  | handlerError
  | duplicateTopicError
deriving DecidableEq

/-- The exception classes caught by the first except clause of the consumer
loop (consumer.py line 124): UnicodeDecodeError and MagicByteError. -/
def recoverable : PyError → Bool
  | .unicodeDecodeError => true
  | .magicByteError => true
  | _ => false

/-- Parsed schema definitions, decoded Avro structures, parsed+validated
values and handler value-type descriptors are opaque to this layer. -/
abbrev Schema := Nat

abbrev Decoded := Nat

abbrev AvroObj := Nat

abbrev AnnType := Nat

/-- The process-wide schemas dict of consumer.py line 18. -/
abbrev Cache := List (Nat × Schema)

/-- A message key as passed to key_serializer: Python None, raw bytes, or any
other object represented by its str() form. -/
inductive KeyV
  | none
  | bytes (b : List Nat)
  | str (s : String)
deriving DecidableEq

/-- A value as passed to value_serializer: Python None, raw bytes, an AvroModel
instance (with its schema id, Avro binary body, and the outcome of its
self-validation), or any other object. -/
inductive Value
  | none
  | bytes (b : List Nat)
  | avro (schemaId : Nat) (body : List Nat) (valid : Bool)
  | other
deriving DecidableEq

/-- The KafkaMessage dataclass of consumer.py lines 21-26. -/
structure KafkaMessage where
  topic : String
  key : KeyV
  value : Value
  headers : List (String × String)
deriving DecidableEq

/-- An element of the list returned by the callback: either a KafkaMessage or
some other object (the loop checks issubclass and raises otherwise). -/
inductive HObj
  | msg (m : KafkaMessage)
  | notMsg
deriving DecidableEq

/-- A subscription is either an explicit topic list or the catch-all pattern. -/
inductive SubKind
  | topicList (ts : List String)
  | pattern
deriving DecidableEq

/-- Observable actions of the loop on its collaborators, in order. -/
inductive Event
  | consumerStart
  | subscribe (k : SubKind)
  | producerStart
  | cacheLookup (id : Nat)
  | fetchSchema (id : Nat)
  | handlerCall (value : Option AvroObj) (key : Option String)
      (headers : List (String × String)) (topic : String)
  | send (m : KafkaMessage) (headers : List (String × String))
  | commit
  | logWarning
  | logError
  | seekToCommitted
  | sleepDelay
deriving DecidableEq

/-- A record pulled from the stream: topic, raw key bytes, raw value bytes and
raw headers, as delivered by the transport. -/
structure Record where
  topic : String
  key : Option (List Nat)
  value : Option (List Nat)
  headers : List (String × List Nat)
deriving DecidableEq

/-- The external collaborators and configuration: broker setting, the result of
the transport's paused() query, UTF-8 decoding, the schema registry fetch
(get_schema of validate.py), the fastavro schemaless reader, the AvroModel
parse_obj and validate methods, the registered handler, and whether the
transport acknowledges a given send. -/
structure Env where
  kafkaBrokers : Option String
  pausedNonempty : Bool
  utf8 : List Nat → Except Unit String
  registry : Nat → Except Unit Schema
  avroRead : Schema → List Nat → Except Unit Decoded
  parse : AnnType → Decoded → Except Unit AvroObj
  valid : AvroObj → Bool
  callback : Option AvroObj → Option String → List (String × String) → String →
      Except PyError (List HObj)
  sendOk : KafkaMessage → Bool

/-- Shallow embedding of value_serializer (producer.py lines 12-24): None maps
to None, raw bytes pass through, an AvroModel is validated and then framed as
magic byte 0, the 4 big-endian bytes of its schema id, and its Avro body;
anything else raises NotImplementedError.  struct.pack with format >I rejects
an id outside 32-bit range. -/
def value_serializer : Value → Except PyError (Option (List Nat))
  | .none => .ok none
  | .bytes b => .ok (some b)
  | .avro sid body v =>
    if v then
      if sid < 4294967296 then .ok (some (0 :: be4 sid ++ body))
      else .error .structError
    else .error .validationError
  | .other => .error .notImplementedError

/-- Shallow embedding of key_serializer (producer.py lines 27-34); the UTF-8
encoding of str(value) is abstracted by the enc parameter. -/
def key_serializer (enc : String → List Nat) : KeyV → Option (List Nat)
  | .none => none
  | .bytes b => some b
  | .str s => some (enc s)

/-- Shallow embedding of the first call of get_producer (producer.py lines
37-52): the singleton is created; it is started (with an info log) when the
broker setting is present, otherwise a warning is logged and it stays inert. -/
def get_producer (env : Env) : List Event :=
  match env.kafkaBrokers with
  | some _ => [.producerStart]
  | none => [.logWarning]

/-- Shallow embedding of consumer.py lines 44-47: the process-wide schemas dict
is consulted first; on a miss the registry is fetched, and only a successful
fetch is inserted into the dict (a raising fetch inserts nothing). -/
def resolveSchema (env : Env) (cache : Cache) (sid : Nat) :
    List Event × Cache × Except PyError Schema :=
  match alookup cache sid with
  | some s => ([.cacheLookup sid], cache, .ok s)
  | none =>
    match env.registry sid with
    | .ok s => ([.cacheLookup sid, .fetchSchema sid], dinsert cache sid s, .ok s)
    | .error _ => ([.cacheLookup sid, .fetchSchema sid], cache, .error .registryError)

/-- Shallow embedding of value_deserializer (consumer.py lines 36-52): None
stays None; data[0] on empty bytes raises IndexError; a first byte other than
0 raises MagicByteError before any schema resolution; struct.unpack with
format >I on data[1:5] raises when fewer than 4 bytes remain; then the schema
is resolved through the cache, the body bytes are read by fastavro, parsed
into the annotation type, and self-validated. -/
def value_deserializer (env : Env) (cache : Cache) (data : Option (List Nat))
    (ann : AnnType) : List Event × Cache × Except PyError (Option AvroObj) :=
  match data with
  | none => ([], cache, .ok none)
  | some d =>
    match d.head? with
    | none => ([], cache, .error .indexError)
    | some magic =>
      if magic ≠ 0 then ([], cache, .error .magicByteError)
      else if ((d.drop 1).take 4).length ≠ 4 then ([], cache, .error .structError)
      else
        match resolveSchema env cache (beVal ((d.drop 1).take 4)) with
        | (evs, c2, .error e) => (evs, c2, .error e)
        | (evs, c2, .ok sch) =>
          match env.avroRead sch (d.drop 5) with
          | .error _ => (evs, c2, .error .avroDecodeError)
          | .ok dec =>
            match env.parse ann dec with
            | .error _ => (evs, c2, .error .parseError)
            | .ok v =>
              if env.valid v then (evs, c2, .ok (some v))
              else (evs, c2, .error .validationError)

/-- Key decoding (consumer.py line 106): a falsy key (None or empty bytes)
yields None without decoding; otherwise the bytes are decoded as UTF-8, a
failure raising UnicodeDecodeError. -/
def decodeKey (env : Env) : Option (List Nat) → Except PyError (Option String)
  | none => .ok none
  | some kb =>
    if kb = [] then .ok none
    else
      match env.utf8 kb with
      | .ok s => .ok (some s)
      | .error _ => .error .unicodeDecodeError

/-- Header decoding (consumer.py line 111): the dict comprehension decoding
every header value as UTF-8, in order, into a dict. -/
def decodeHeadersAux (env : Env) (acc : List (String × String)) :
    List (String × List Nat) → Except PyError (List (String × String))
  | [] => .ok acc
  | p :: t =>
    match env.utf8 p.2 with
    | .ok s => decodeHeadersAux env (dinsert acc p.1 s) t
    | .error _ => .error .unicodeDecodeError

def decodeHeaders (env : Env) (hs : List (String × List Nat)) :
    Except PyError (List (String × String)) :=
  decodeHeadersAux env [] hs

/-- Header merge on republish (consumer.py line 121): the Python dict literal
writes the processed_topic entry first and then unpacks the message's own
headers over it, so a handler-supplied processed_topic key overwrites the
injected inbound topic. -/
def mergeHeaders (t : String) (h : List (String × String)) : List (String × String) :=
  h.foldl (fun m p => dinsert m p.1 p.2) [("processed_topic", t)]

/-- One declared alternative of the callback's value parameter: an AvroModel
subclass with its class name, or some other type (skipped by pick_event). -/
inductive TypeDecl
  | avroT (n : String) (a : AnnType)
  | nonAvro
deriving DecidableEq

/-- The declared value-parameter alternatives of a registered callback (a
single-element list when the parameter is not a union). -/
structure HandlerDecl where
  valueTypes : List TypeDecl
deriving DecidableEq

/-- pick_event (consumer.py lines 78-83): an AvroModel subclass derives its
kebab-case topic; a topic already present raises the duplicate-topic error,
otherwise the binding is added. -/
def pick_event (acc : List (String × AnnType)) : TypeDecl → Except PyError (List (String × AnnType))
  | .nonAvro => .ok acc
  | .avroT n a =>
    if (alookup acc (to_kebab_case n)).isSome then .error .duplicateTopicError
    else .ok (acc ++ [(to_kebab_case n, a)])

/-- Shallow embedding of the signature-extraction function of consumer.py lines
74-93, over the declared alternatives of the value parameter. -/
def extract_value_bindings (decl : HandlerDecl) : Except PyError (List (String × AnnType)) :=
  decl.valueTypes.foldlM pick_event []

/-- Shallow embedding of get_consumer (consumer.py lines 55-71): without a
broker setting the consumer is built but not started and a warning is logged;
otherwise it is started and subscribed to the topic list when nonempty, or to
the catch-all pattern when empty. -/
def get_consumer (env : Env) (topics : List String) : List Event × Bool :=
  match env.kafkaBrokers with
  | none => ([.logWarning], false)
  | some _ =>
    if topics.isEmpty then ([.consumerStart, .subscribe .pattern], true)
    else ([.consumerStart, .subscribe (.topicList topics)], true)

/-- The republish loop (consumer.py lines 114-122): each returned object must
be a KafkaMessage (else an exception is raised); its value goes through the
producer's value_serializer, and send_and_wait publishes it with the merged
headers; the first failure aborts the remaining sends. -/
def publishLoop (env : Env) (inTopic : String) : List HObj → List Event × Except PyError Unit
  | [] => ([], .ok ())
  | .notMsg :: _ => ([], .error .typeError)
  | .msg m :: rest =>
    match value_serializer m.value with
    | .error e => ([], .error e)
    | .ok _ =>
      if env.sendOk m then
        match publishLoop env inTopic rest with
        | (evs, res) => (.send m (mergeHeaders inTopic m.headers) :: evs, res)
      else ([], .error .publishError)

/-- The body of the per-record try block (consumer.py lines 104-123): binding
lookup (KeyError when the topic is unbound), key decode, value decode, header
decode, handler invocation, republish of each returned message, and finally
the offset commit. -/
def tryBody (env : Env) (bindings : List (String × AnnType)) (cache : Cache) (r : Record) :
    List Event × Cache × Except PyError Unit :=
  match alookup bindings r.topic with
  | none => ([], cache, .error .keyError)
  | some ann =>
    match decodeKey env r.key with
    | .error e => ([], cache, .error e)
    | .ok k =>
      match value_deserializer env cache r.value ann with
      | (evs, c2, .error e) => (evs, c2, .error e)
      | (evs, c2, .ok v) =>
        match decodeHeaders env r.headers with
        | .error e => (evs, c2, .error e)
        | .ok hs =>
          match env.callback v k hs r.topic with
          | .error e => (evs ++ [.handlerCall v k hs r.topic], c2, .error e)
          | .ok objs =>
            match publishLoop env r.topic objs with
            | (sevs, .ok _) =>
              (evs ++ .handlerCall v k hs r.topic :: sevs ++ [.commit], c2, .ok ())
            | (sevs, .error e) =>
              (evs ++ .handlerCall v k hs r.topic :: sevs, c2, .error e)

/-- One iteration of the consumer loop with its two except clauses
(consumer.py lines 103-130): UnicodeDecodeError and MagicByteError are logged
as a warning and the record is skipped; any other exception is logged as an
error, the position is rewound to the last committed offset, and a fixed
delay is waited. -/
def processRecord (env : Env) (bindings : List (String × AnnType)) (cache : Cache)
    (r : Record) : List Event × Cache :=
  match tryBody env bindings cache r with
  | (evs, c2, .ok _) => (evs, c2)
  | (evs, c2, .error e) =>
    if recoverable e then (evs ++ [.logWarning], c2)
    else (evs ++ [.logError, .seekToCommitted, .sleepDelay], c2)

/-- The async-for over the sequence of records actually delivered by the
stream, threading the schema cache. -/
def runLoop (env : Env) (bindings : List (String × AnnType)) :
    Cache → List Record → List Event × Cache
  | cache, [] => ([], cache)
  | cache, r :: rs =>
    match processRecord env bindings cache r with
    | (evs, c2) =>
      match runLoop env bindings c2 rs with
      | (evs2, c3) => (evs ++ evs2, c3)

/-- Shallow embedding of consume_messages (consumer.py lines 96-131): extract
the bindings (a duplicate topic raises before anything else), open the
consumer, get the producer, return immediately when the transport's paused()
set is empty, otherwise drive the loop over the delivered records. -/
def consume_messages (env : Env) (decl : HandlerDecl) (cache : Cache)
    (records : List Record) : List Event × Except PyError Unit :=
  match extract_value_bindings decl with
  | .error e => ([], .error e)
  | .ok bindings =>
    match get_consumer env (bindings.map Prod.fst) with
    | (cevs, _) =>
      if !env.pausedNonempty then (cevs ++ get_producer env, .ok ())
      else (cevs ++ get_producer env ++ (runLoop env bindings cache records).1, .ok ())

/-- The consumer-group cursor: last committed offset and current poll
position, plus the schema cache. -/
structure LoopState where
  committed : Nat
  pos : Nat
  cache : Cache
deriving DecidableEq

/-- Modelled from the spec: the commit / seek-to-committed cursor semantics of
the transport collaborator (spec sections 6 and 8), which live in aiokafka
and not in the sources — commit records the position past the consumed
record, seek-to-committed rewinds the position to the committed offset so the
same record is redelivered on the next poll.  One loop iteration composes
processRecord with those cursor effects. -/
def loopStep (env : Env) (bindings : List (String × AnnType)) (log : List Record)
    (s : LoopState) : List Event × LoopState :=
  match log.get? s.pos with
  | none => ([], s)
  | some r =>
    match processRecord env bindings s.cache r with
    | (evs, c2) =>
      if .commit ∈ evs then (evs, ⟨s.pos + 1, s.pos + 1, c2⟩)
      else if .seekToCommitted ∈ evs then (evs, ⟨s.committed, s.committed, c2⟩)
      else (evs, ⟨s.committed, s.pos + 1, c2⟩)

def stepState (env : Env) (bindings : List (String × AnnType)) (log : List Record)
    (s : LoopState) : LoopState :=
  (loopStep env bindings log s).2

/-- Concrete outgoing message used to exercise the loop on a happy path. -/
def mW1 : KafkaMessage := ⟨"processed-feedback", .str "k", .none, []⟩

/-- Concrete environment for happy-path runs: brokers present, transport
paused-set nonempty, all codecs succeed, handler returns one message,
transport acknowledges every send. -/
def envW1 : Env :=
  ⟨some "localhost", true,
   fun _ => .ok "k",
   fun _ => .ok 0,
   fun _ _ => .ok 0,
   fun _ _ => .ok 0,
   fun _ => true,
   fun _ _ _ _ => .ok [.msg mW1],
   fun _ => true⟩

/-- A single-topic binding table, as derived from a handler declared on a
UserFeedback value. -/
def bW1 : List (String × AnnType) := [("user-feedback", 0)]

def declW1 : HandlerDecl := ⟨[.avroT "UserFeedback" 0]⟩

/-- A well-framed record on the bound topic. -/
def rW1 : Record := ⟨"user-feedback", some [107], some [0, 0, 0, 0, 7, 9], []⟩

/-- A record with a valid key and a tombstone value but a header value that is
not valid UTF-8 under envW2. -/
def rW2 : Record := ⟨"user-feedback", some [107], none, [("h", [255])]⟩

/-- Environment whose UTF-8 decoder rejects the byte 255. -/
def envW2 : Env :=
  ⟨some "localhost", true,
   fun b => if b = [255] then .error () else .ok "k",
   fun _ => .ok 0,
   fun _ _ => .ok 0,
   fun _ _ => .ok 0,
   fun _ => true,
   fun _ _ _ _ => .ok [.msg mW1],
   fun _ => true⟩

/-- An outgoing message whose handler-supplied headers already contain a
processed_topic entry. -/
def mW4 : KafkaMessage := ⟨"processed-feedback", .str "k", .none, [("processed_topic", "x")]⟩

/-- Environment whose handler returns mW4. -/
def envW4 : Env :=
  ⟨some "localhost", true,
   fun _ => .ok "k",
   fun _ => .ok 0,
   fun _ _ => .ok 0,
   fun _ _ => .ok 0,
   fun _ => true,
   fun _ _ _ _ => .ok [.msg mW4],
   fun _ => true⟩

/-- Environment whose registry holds schema 42 under id 7. -/
def envW5 : Env :=
  ⟨some "localhost", true,
   fun _ => .ok "k",
   fun i => if i = 7 then .ok 42 else .error (),
   fun _ _ => .ok 0,
   fun _ _ => .ok 0,
   fun _ => true,
   fun _ _ _ _ => .ok [],
   fun _ => true⟩

/-- Environment whose registry fetch always fails. -/
def envW6 : Env :=
  ⟨some "localhost", true,
   fun _ => .ok "k",
   fun _ => .error (),
   fun _ _ => .ok 0,
   fun _ _ => .ok 0,
   fun _ => true,
   fun _ _ _ _ => .ok [],
   fun _ => true⟩

/-- A handler declaration whose two alternatives derive the same topic. -/
def declW7 : HandlerDecl := ⟨[.avroT "UserFeedback" 1, .avroT "UserFeedback" 2]⟩

/-- A record whose topic has no binding. -/
def rW10 : Record := ⟨"unbound-topic", some [107], none, []⟩

/-- A record on the bound topic carrying the empty (zero-length) payload. -/
def rW9 : Record := ⟨"user-feedback", some [107], some [], []⟩

/-- Events emitted by schema resolution. -/
def resolveEv : Event → Bool
  | .cacheLookup _ => true
  | .fetchSchema _ => true
  | _ => false

/-- Events that are publishes. -/
def sendEv : Event → Bool
  | .send _ _ => true
  | _ => false

/-- Events that can occur inside the try block before its commit: schema
resolution, the handler call, and publishes.  Commit, the seek, the delay and
the log lines are never among them. -/
def bodyEv : Event → Bool
  | .cacheLookup _ => true
  | .fetchSchema _ => true
  | .handlerCall _ _ _ _ => true
  | .send _ _ => true
  | _ => false

theorem beVal_be4 (n : Nat) (h : n < 4294967296) : beVal (be4 n) = n := by
  simp [beVal, be4, List.foldl]
  omega

theorem alookup_dinsert_self {α β : Type} [DecidableEq α] (k : α) (v : β) :
    ∀ m : List (α × β), alookup (dinsert m k v) k = some v := by
  intro m
  induction m with
  | nil => simp [dinsert, alookup]
  | cons p t ih =>
    unfold dinsert
    by_cases h : p.1 = k
    · rw [if_pos h]; simp [alookup]
    · rw [if_neg h]; unfold alookup; rw [if_neg h]; exact ih

theorem alookup_dinsert_ne {α β : Type} [DecidableEq α] (k k2 : α) (v : β) (hne : k2 ≠ k) :
    ∀ m : List (α × β), alookup (dinsert m k v) k2 = alookup m k2 := by
  intro m
  induction m with
  | nil => simp [dinsert, alookup]; intro h; exact absurd h.symm hne
  | cons p t ih =>
    unfold dinsert
    by_cases h : p.1 = k
    · rw [if_pos h]
      unfold alookup
      rw [if_neg (fun hk => hne hk.symm), if_neg (fun hk => hne (h.symm.trans hk).symm)]
    · rw [if_neg h]
      unfold alookup
      by_cases h2 : p.1 = k2
      · rw [if_pos h2, if_pos h2]
      · rw [if_neg h2, if_neg h2]; exact ih

theorem foldl_dinsert_alookup {α β : Type} [DecidableEq α] (k : α) :
    ∀ (h : List (α × β)) (m : List (α × β)),
      alookup (h.foldl (fun acc p => dinsert acc p.1 p.2) m) k =
        match lastVal h k with
        | some v => some v
        | none => alookup m k := by
  intro h
  induction h with
  | nil => intro m; simp [lastVal]
  | cons p t ih =>
    intro m
    show alookup (t.foldl _ (dinsert m p.1 p.2)) k = _
    rw [ih]
    rcases hlv : lastVal t k with _ | v
    · show alookup (dinsert m p.1 p.2) k = _
      unfold lastVal
      rw [hlv]
      by_cases hpk : p.1 = k
      · rw [if_pos hpk, ← hpk]
        exact alookup_dinsert_self p.1 p.2 m
      · rw [if_neg hpk]
        exact alookup_dinsert_ne p.1 k p.2 (fun hk => hpk hk.symm) m
    · unfold lastVal
      rw [hlv]

theorem mergeHeaders_lookup (t : String) (h : List (String × String)) :
    alookup (mergeHeaders t h) "processed_topic" =
      some ((lastVal h "processed_topic").getD t) := by
  unfold mergeHeaders
  rw [foldl_dinsert_alookup]
  rcases hlv : lastVal h "processed_topic" with _ | v
  · simp [alookup]
  · simp

theorem resolveSchema_events (env : Env) (c : Cache) (sid : Nat) :
    ∀ x ∈ (resolveSchema env c sid).1, resolveEv x = true := by
  intro x hx
  unfold resolveSchema at hx
  split at hx
  · simp at hx; subst hx; rfl
  · split at hx <;> (simp at hx; rcases hx with rfl | rfl <;> rfl)

theorem value_deserializer_evs (env : Env) (c : Cache) (data : Option (List Nat))
    (ann : AnnType) :
    (value_deserializer env c data ann).1 = [] ∨
    ∃ sid, (value_deserializer env c data ann).1 = (resolveSchema env c sid).1 := by
  unfold value_deserializer
  split
  · left; rfl
  · split
    · left; rfl
    · split
      · left; rfl
      · split
        · left; rfl
        · split
          case _ evs c2 e heq => right; exact ⟨_, by rw [heq]⟩
          case _ evs c2 sch heq =>
            split
            · right; exact ⟨_, by rw [heq]⟩
            · split
              · right; exact ⟨_, by rw [heq]⟩
              · split
                · right; exact ⟨_, by rw [heq]⟩
                · right; exact ⟨_, by rw [heq]⟩

theorem value_deserializer_events (env : Env) (c : Cache) (data : Option (List Nat))
    (ann : AnnType) :
    ∀ x ∈ (value_deserializer env c data ann).1, resolveEv x = true := by
  intro x hx
  rcases value_deserializer_evs env c data ann with h | ⟨sid, h⟩
  · rw [h] at hx; simp at hx
  · rw [h] at hx; exact resolveSchema_events env c sid x hx

theorem publishLoop_events (env : Env) (t : String) :
    ∀ objs, ∀ x ∈ (publishLoop env t objs).1, sendEv x = true := by
  intro objs
  induction objs with
  | nil => intro x hx; simp [publishLoop] at hx
  | cons o rest ih =>
    intro x hx
    cases o with
    | notMsg => simp [publishLoop] at hx
    | msg m =>
      unfold publishLoop at hx
      rcases hvs : value_serializer m.value with e | b
      · rw [hvs] at hx; simp at hx
      · rw [hvs] at hx
        by_cases hs : env.sendOk m
        · rw [if_pos hs] at hx
          rcases hpl : publishLoop env t rest with ⟨evs, res⟩
          rw [hpl] at hx
          simp at hx
          rcases hx with rfl | hx
          · rfl
          · exact ih x (by rw [hpl]; exact hx)
        · rw [if_neg hs] at hx; simp at hx

theorem publishLoop_send_mem (env : Env) (t : String) :
    ∀ objs (m : KafkaMessage) (hd : List (String × String)),
      Event.send m hd ∈ (publishLoop env t objs).1 → hd = mergeHeaders t m.headers := by
  intro objs
  induction objs with
  | nil => intro m hd hx; simp [publishLoop] at hx
  | cons o rest ih =>
    intro m hd hx
    cases o with
    | notMsg => simp [publishLoop] at hx
    | msg m2 =>
      unfold publishLoop at hx
      rcases hvs : value_serializer m2.value with e | b
      · rw [hvs] at hx; simp at hx
      · rw [hvs] at hx
        by_cases hs : env.sendOk m2
        · rw [if_pos hs] at hx
          rcases hpl : publishLoop env t rest with ⟨evs, res⟩
          rw [hpl] at hx
          simp at hx
          rcases hx with ⟨rfl, rfl⟩ | hx
          · rfl
          · exact ih m hd (by rw [hpl]; exact hx)
        · rw [if_neg hs] at hx; simp at hx

theorem publishLoop_ok (env : Env) (t : String) :
    ∀ objs, (publishLoop env t objs).2 = .ok () →
      ∃ ms : List KafkaMessage, objs = ms.map HObj.msg ∧
        (publishLoop env t objs).1 = ms.map (fun m => Event.send m (mergeHeaders t m.headers)) := by
  intro objs
  induction objs with
  | nil => intro _; exact ⟨[], rfl, rfl⟩
  | cons o rest ih =>
    intro hok
    cases o with
    | notMsg => simp [publishLoop] at hok
    | msg m =>
      have hstep : publishLoop env t (HObj.msg m :: rest) =
          match value_serializer m.value with
          | .error e => ([], .error e)
          | .ok _ =>
            if env.sendOk m then
              match publishLoop env t rest with
              | (evs, res) => (.send m (mergeHeaders t m.headers) :: evs, res)
            else ([], .error .publishError) := rfl
      rcases hvs : value_serializer m.value with e | b
      · rw [hstep, hvs] at hok; simp at hok
      · by_cases hs : env.sendOk m
        · rcases hpl : publishLoop env t rest with ⟨evs, res⟩
          rw [hstep, hvs, if_pos hs, hpl] at hok
          simp at hok
          obtain ⟨ms, hms, hevs⟩ := ih (by rw [hpl]; exact hok)
          refine ⟨m :: ms, by rw [List.map_cons, ← hms], ?_⟩
          rw [hstep, hvs, if_pos hs, hpl]
          have hevs2 : evs = ms.map (fun m => Event.send m (mergeHeaders t m.headers)) := by
            rw [hpl] at hevs; exact hevs
          simp [hevs2]
        · rw [hstep, hvs, if_neg hs] at hok; simp at hok

theorem resolveEv_bodyEv (x : Event) (h : resolveEv x = true) : bodyEv x = true := by
  cases x <;> simp_all [resolveEv, bodyEv]

theorem sendEv_bodyEv (x : Event) (h : sendEv x = true) : bodyEv x = true := by
  cases x <;> simp_all [sendEv, bodyEv]

theorem tryBody_error_events (env : Env) (b : List (String × AnnType)) (c : Cache)
    (r : Record) (pre : List Event) (c2 : Cache) (e : PyError)
    (h : tryBody env b c r = (pre, c2, .error e)) :
    ∀ x ∈ pre, bodyEv x = true := by
  unfold tryBody at h
  rcases hl : alookup b r.topic with _ | ann
  · rw [hl] at h; dsimp only at h
    injection h with h1 h2
    subst h1
    intro x hx; simp at hx
  · rw [hl] at h; dsimp only at h
    rcases hk : decodeKey env r.key with e1 | k
    · rw [hk] at h; dsimp only at h
      injection h with h1 h2
      subst h1
      intro x hx; simp at hx
    · rw [hk] at h; dsimp only at h
      rcases hv : value_deserializer env c r.value ann with ⟨evs, c2x, e1 | v⟩
      · rw [hv] at h; dsimp only at h
        injection h with h1 h2
        subst h1
        intro x hx
        exact resolveEv_bodyEv x (value_deserializer_events env c r.value ann x (by rw [hv]; exact hx))
      · rw [hv] at h; dsimp only at h
        rcases hh : decodeHeaders env r.headers with e1 | hs
        · rw [hh] at h; dsimp only at h
          injection h with h1 h2
          subst h1
          intro x hx
          exact resolveEv_bodyEv x (value_deserializer_events env c r.value ann x (by rw [hv]; exact hx))
        · rw [hh] at h; dsimp only at h
          rcases hc : env.callback v k hs r.topic with e1 | objs
          · rw [hc] at h; dsimp only at h
            injection h with h1 h2
            subst h1
            intro x hx
            rcases List.mem_append.mp hx with hx1 | hx2
            · exact resolveEv_bodyEv x (value_deserializer_events env c r.value ann x (by rw [hv]; exact hx1))
            · simp at hx2; subst hx2; rfl
          · rw [hc] at h; dsimp only at h
            rcases hp : publishLoop env r.topic objs with ⟨sevs, e2 | u⟩
            · rw [hp] at h; dsimp only at h
              injection h with h1 h2
              subst h1
              intro x hx
              rcases List.mem_append.mp hx with hx1 | hx2
              · exact resolveEv_bodyEv x (value_deserializer_events env c r.value ann x (by rw [hv]; exact hx1))
              · rcases List.mem_cons.mp hx2 with rfl | hx3
                · rfl
                · exact sendEv_bodyEv x (publishLoop_events env r.topic objs x (by rw [hp]; exact hx3))
            · rw [hp] at h; dsimp only at h
              injection h with h1 h2
              injection h2 with h2a h2b
              exact Except.noConfusion h2b

theorem tryBody_send_mem (env : Env) (b : List (String × AnnType)) (c : Cache)
    (r : Record) (pre : List Event) (c2 : Cache) (res : Except PyError Unit)
    (m : KafkaMessage) (hd : List (String × String))
    (h : tryBody env b c r = (pre, c2, res)) (hx : Event.send m hd ∈ pre) :
    hd = mergeHeaders r.topic m.headers := by
  unfold tryBody at h
  rcases hl : alookup b r.topic with _ | ann
  · rw [hl] at h; dsimp only at h
    injection h with h1 h2
    subst h1
    simp at hx
  · rw [hl] at h; dsimp only at h
    rcases hk : decodeKey env r.key with e1 | k
    · rw [hk] at h; dsimp only at h
      injection h with h1 h2
      subst h1
      simp at hx
    · rw [hk] at h; dsimp only at h
      rcases hv : value_deserializer env c r.value ann with ⟨evs, c2x, e1 | v⟩
      · rw [hv] at h; dsimp only at h
        injection h with h1 h2
        subst h1
        have := value_deserializer_events env c r.value ann _ (by rw [hv]; exact hx)
        simp [resolveEv] at this
      · rw [hv] at h; dsimp only at h
        rcases hh : decodeHeaders env r.headers with e1 | hs
        · rw [hh] at h; dsimp only at h
          injection h with h1 h2
          subst h1
          have := value_deserializer_events env c r.value ann _ (by rw [hv]; exact hx)
          simp [resolveEv] at this
        · rw [hh] at h; dsimp only at h
          rcases hc : env.callback v k hs r.topic with e1 | objs
          · rw [hc] at h; dsimp only at h
            injection h with h1 h2
            subst h1
            rcases List.mem_append.mp hx with hx1 | hx2
            · have := value_deserializer_events env c r.value ann _ (by rw [hv]; exact hx1)
              simp [resolveEv] at this
            · simp at hx2
          · rw [hc] at h; dsimp only at h
            rcases hp : publishLoop env r.topic objs with ⟨sevs, e2 | u⟩
            · rw [hp] at h; dsimp only at h
              injection h with h1 h2
              subst h1
              rcases List.mem_append.mp hx with hx1 | hx2
              · have := value_deserializer_events env c r.value ann _ (by rw [hv]; exact hx1)
                simp [resolveEv] at this
              · rcases List.mem_cons.mp hx2 with heq | hx3
                · exact Event.noConfusion heq
                · exact publishLoop_send_mem env r.topic objs m hd (by rw [hp]; exact hx3)
            · rw [hp] at h; dsimp only at h
              injection h with h1 h2
              subst h1
              rcases List.mem_append.mp hx with hx1 | hx2
              · rcases List.mem_append.mp hx1 with hx1a | hx1b
                · have := value_deserializer_events env c r.value ann _ (by rw [hv]; exact hx1a)
                  simp [resolveEv] at this
                · rcases List.mem_cons.mp hx1b with heq | hx3
                  · exact Event.noConfusion heq
                  · exact publishLoop_send_mem env r.topic objs m hd (by rw [hp]; exact hx3)
              · simp at hx2

theorem processRecord_send_mem (env : Env) (b : List (String × AnnType)) (c : Cache)
    (r : Record) (m : KafkaMessage) (hd : List (String × String))
    (hx : Event.send m hd ∈ (processRecord env b c r).1) :
    hd = mergeHeaders r.topic m.headers := by
  unfold processRecord at hx
  rcases ht : tryBody env b c r with ⟨pre, c2, e1 | u⟩
  · rw [ht] at hx; dsimp only at hx
    by_cases hrec : recoverable e1
    · rw [if_pos hrec] at hx
      rcases List.mem_append.mp hx with hx1 | hx2
      · exact tryBody_send_mem env b c r pre c2 (.error e1) m hd ht hx1
      · simp at hx2
    · rw [if_neg hrec] at hx
      rcases List.mem_append.mp hx with hx1 | hx2
      · exact tryBody_send_mem env b c r pre c2 (.error e1) m hd ht hx1
      · simp at hx2
  · rw [ht] at hx; dsimp only at hx
    exact tryBody_send_mem env b c r pre c2 (.ok u) m hd ht hx

/-- C2: value encoding: an absent value encodes to an absent payload; a
raw-bytes value passes through unchanged; a schema-bearing value is first
self-validated (an invalid value raises before any encoding) and a valid one
encodes as the byte 0, then four bytes holding the schema id as a big-endian
unsigned integer, then the Avro binary body; any other value raises the
unsupported-type (NotImplementedError) failure. -/
theorem value_serializer_spec :
    value_serializer Value.none = .ok none
  ∧ (∀ b, value_serializer (Value.bytes b) = .ok (some b))
  ∧ (∀ sid body, sid < 4294967296 →
      value_serializer (Value.avro sid body false) = .error .validationError
    ∧ (value_serializer (Value.avro sid body true) = .ok (some (0 :: (be4 sid ++ body)))
        ∧ (be4 sid).length = 4 ∧ beVal (be4 sid) = sid))
  ∧ value_serializer Value.other = .error .notImplementedError := by
  refine ⟨rfl, fun b => rfl, ?_, rfl⟩
  intro sid body h
  refine ⟨rfl, ?_, rfl, beVal_be4 sid h⟩
  simp [value_serializer, h]

/-- Witness for C2 at schema id 7 with body [9]. -/
theorem value_serializer_spec_witness :
    value_serializer (Value.avro 7 [9] false) = .error .validationError
  ∧ value_serializer (Value.avro 7 [9] true) = .ok (some [0, 0, 0, 0, 7, 9]) := by
  have h := value_serializer_spec.2.2.1 7 [9] (by decide)
  exact ⟨h.1, by rw [h.2.1]; rfl⟩

/-- C3: a non-absent framed input whose first byte is not 0 raises the
bad-magic-byte MagicByteError, the cache state is unchanged, and the event
trace is empty, so neither the schema cache nor the registry was consulted. -/
theorem bad_magic_no_resolution (env : Env) (cache : Cache) (d : List Nat)
    (ann : AnnType) (b0 : Nat) (h0 : d.head? = some b0) (hb : b0 ≠ 0) :
    value_deserializer env cache (some d) ann = ([], cache, .error .magicByteError) := by
  cases d with
  | nil => simp at h0
  | cons x t =>
    simp at h0
    subst h0
    simp [value_deserializer, hb]

/-- Witness for C3 on the framed input [1, 2, 3]. -/
theorem bad_magic_no_resolution_witness :
    value_deserializer envW1 [] (some [1, 2, 3]) 0 = ([], [], .error .magicByteError) :=
  bad_magic_no_resolution envW1 [] [1, 2, 3] 0 1 rfl (by decide)

/-- C5: resolving the same schema id twice fetches from the registry at most
once: a successful first resolution stores the schema, so the second call is
a pure cache hit returning the stored schema with no fetch; a failed fetch
inserts nothing, so resolving the same id again against the unchanged cache
performs the registry fetch again. -/
theorem schema_cache_resolve (env : Env) (c : Cache) (sid : Nat) :
    (∀ s evs1 c1, resolveSchema env c sid = (evs1, c1, .ok s) →
        resolveSchema env c1 sid = ([Event.cacheLookup sid], c1, .ok s)
      ∧ (evs1 ++ [Event.cacheLookup sid]).count (Event.fetchSchema sid) ≤ 1)
  ∧ (alookup c sid = none → ∀ er : Unit, env.registry sid = .error er →
        resolveSchema env c sid =
          ([Event.cacheLookup sid, Event.fetchSchema sid], c, .error .registryError)
      ∧ Event.fetchSchema sid ∈ (resolveSchema env c sid).1) := by
  constructor
  · intro s evs1 c1 h1
    unfold resolveSchema at h1
    rcases hca : alookup c sid with _ | s0
    · rw [hca] at h1; dsimp only at h1
      rcases hr : env.registry sid with er | s1
      · rw [hr] at h1; dsimp only at h1
        injection h1 with h1a h1b
        injection h1b with h1c h1d
        exact Except.noConfusion h1d
      · rw [hr] at h1; dsimp only at h1
        injection h1 with h1a h1b
        injection h1b with h1c h1d
        injection h1d with h1e
        subst h1a; subst h1c; subst h1e
        constructor
        · unfold resolveSchema
          rw [alookup_dinsert_self sid s1 c]
        · simp [List.count_append, List.count_cons]
    · rw [hca] at h1; dsimp only at h1
      injection h1 with h1a h1b
      injection h1b with h1c h1d
      injection h1d with h1e
      subst h1a; subst h1c; subst h1e
      constructor
      · unfold resolveSchema; rw [hca]
      · simp [List.count_append, List.count_cons]
  · intro hca er hr
    constructor
    · unfold resolveSchema; rw [hca, hr]
    · unfold resolveSchema; rw [hca, hr]; simp

/-- Witness for C5: a cache hit after a successful fetch, and a failed fetch
leaving the cache empty. -/
theorem schema_cache_resolve_witness :
    resolveSchema envW5 [(7, 42)] 7 = ([Event.cacheLookup 7], [(7, 42)], .ok 42)
  ∧ resolveSchema envW6 [] 7 =
      ([Event.cacheLookup 7, Event.fetchSchema 7], [], .error .registryError) :=
  ⟨((schema_cache_resolve envW5 [] 7).1 42 [Event.cacheLookup 7, Event.fetchSchema 7]
      [(7, 42)] rfl).1,
   ((schema_cache_resolve envW6 [] 7).2 rfl () rfl).1⟩

/-- C9: the empty (zero-length, non-absent) payload raises IndexError at
data[0], before the magic-byte check can classify it; IndexError is not the
recoverable MagicByteError, so the record takes the error-log, rewind and
delay path rather than the warn-and-skip path. -/
theorem empty_payload_index_error (env : Env) (bindings : List (String × AnnType))
    (cache : Cache) (r : Record) (ann : AnnType) (k : Option String)
    (hl : alookup bindings r.topic = some ann)
    (hk : decodeKey env r.key = .ok k)
    (hv : r.value = some []) :
    value_deserializer env cache r.value ann = ([], cache, .error .indexError)
  ∧ recoverable .indexError = false
  ∧ PyError.indexError ≠ PyError.magicByteError
  ∧ processRecord env bindings cache r =
      ([Event.logError, Event.seekToCommitted, Event.sleepDelay], cache)
  ∧ Event.logWarning ∉ (processRecord env bindings cache r).1 := by
  have hd : value_deserializer env cache r.value ann = ([], cache, .error .indexError) := by
    rw [hv]; rfl
  have htb : tryBody env bindings cache r = ([], cache, .error .indexError) := by
    unfold tryBody
    rw [hl]; dsimp only
    rw [hk]; dsimp only
    rw [hd]
  have hp : processRecord env bindings cache r =
      ([Event.logError, Event.seekToCommitted, Event.sleepDelay], cache) := by
    unfold processRecord
    rw [htb]
    rfl
  exact ⟨hd, rfl, by decide, hp, by rw [hp]; dsimp only; decide⟩

/-- Witness for C9 on a concrete empty-payload record. -/
theorem empty_payload_index_error_witness :
    processRecord envW1 bW1 [] rW9 =
      ([Event.logError, Event.seekToCommitted, Event.sleepDelay], []) :=
  (empty_payload_index_error envW1 bW1 [] rW9 0 (some "k") rfl rfl rfl).2.2.2.1

/-- C1: for a record whose processing reaches the publish stage (binding
found, key, value and headers decoded, handler returned objs), the offset
commit happens only after every returned message has been published
successfully — when all sends succeed the trace is exactly the decode
events, the handler call, one acknowledged send per returned message, and
then the commit as the last event (so no commit precedes any publish); and
when any publish fails, no commit occurs at all for that record. -/
theorem commit_only_after_publishes (env : Env) (bindings : List (String × AnnType))
    (cache : Cache) (r : Record) (ann : AnnType) (v : Option AvroObj) (k : Option String)
    (hs : List (String × String)) (objs : List HObj) (evs : List Event) (c2 : Cache)
    (hl : alookup bindings r.topic = some ann)
    (hk : decodeKey env r.key = .ok k)
    (hv : value_deserializer env cache r.value ann = (evs, c2, .ok v))
    (hh : decodeHeaders env r.headers = .ok hs)
    (hc : env.callback v k hs r.topic = .ok objs) :
    ((publishLoop env r.topic objs).2 = .ok () →
        (processRecord env bindings cache r).1 =
          evs ++ Event.handlerCall v k hs r.topic :: (publishLoop env r.topic objs).1
            ++ [Event.commit]
      ∧ (∀ o ∈ objs, ∃ m, o = HObj.msg m ∧
          Event.send m (mergeHeaders r.topic m.headers) ∈ (publishLoop env r.topic objs).1)
      ∧ Event.commit ∉
          evs ++ Event.handlerCall v k hs r.topic :: (publishLoop env r.topic objs).1)
  ∧ ((publishLoop env r.topic objs).2 ≠ .ok () →
        Event.commit ∉ (processRecord env bindings cache r).1) := by
  have hevsres : ∀ x ∈ evs, resolveEv x = true := fun x hx =>
    value_deserializer_events env cache r.value ann x (by rw [hv]; exact hx)
  rcases hpl : publishLoop env r.topic objs with ⟨sevs, pres⟩
  have hncommit : Event.commit ∉ evs ++ Event.handlerCall v k hs r.topic :: sevs := by
    intro hmem
    rcases List.mem_append.mp hmem with hx1 | hx2
    · have := hevsres _ hx1; simp [resolveEv] at this
    · rcases List.mem_cons.mp hx2 with heq | hx3
      · exact Event.noConfusion heq
      · have := publishLoop_events env r.topic objs _ (by rw [hpl]; exact hx3)
        simp [sendEv] at this
  constructor
  · intro hok
    have hpres : pres = .ok () := hok
    subst hpres
    have htb : tryBody env bindings cache r =
        (evs ++ Event.handlerCall v k hs r.topic :: sevs ++ [Event.commit], c2, .ok ()) := by
      unfold tryBody
      rw [hl]; dsimp only
      rw [hk]; dsimp only
      rw [hv]; dsimp only
      rw [hh]; dsimp only
      rw [hc]; dsimp only
      rw [hpl]
    refine ⟨?_, ?_, ?_⟩
    · unfold processRecord
      rw [htb]
    · intro o ho
      obtain ⟨ms, hms, hevs⟩ := publishLoop_ok env r.topic objs (by rw [hpl])
      rw [hpl] at hevs
      dsimp only at hevs
      subst hms
      simp only [List.mem_map] at ho
      obtain ⟨m, hm, rfl⟩ := ho
      refine ⟨m, rfl, ?_⟩
      show Event.send m (mergeHeaders r.topic m.headers) ∈ sevs
      rw [hevs]
      exact List.mem_map_of_mem _ hm
    · exact hncommit
  · intro hne
    rcases pres with e2 | u
    · have htb : tryBody env bindings cache r =
          (evs ++ Event.handlerCall v k hs r.topic :: sevs, c2, .error e2) := by
        unfold tryBody
        rw [hl]; dsimp only
        rw [hk]; dsimp only
        rw [hv]; dsimp only
        rw [hh]; dsimp only
        rw [hc]; dsimp only
        rw [hpl]
      intro hmem
      unfold processRecord at hmem
      rw [htb] at hmem; dsimp only at hmem
      by_cases hrec : recoverable e2
      · rw [if_pos hrec] at hmem
        rcases List.mem_append.mp hmem with hx1 | hx2
        · exact hncommit hx1
        · simp at hx2
      · rw [if_neg hrec] at hmem
        rcases List.mem_append.mp hmem with hx1 | hx2
        · exact hncommit hx1
        · simp at hx2
    · cases u
      exact absurd rfl hne

/-- Witness for C1 on a happy-path record whose handler returns one message. -/
theorem commit_only_after_publishes_witness :
    (processRecord envW1 bW1 [] rW1).1 =
      [Event.cacheLookup 7, Event.fetchSchema 7,
       Event.handlerCall (some 0) (some "k") [] "user-feedback",
       Event.send mW1 [("processed_topic", "user-feedback")], Event.commit] := by
  have h := (commit_only_after_publishes envW1 bW1 [] rW1 0 (some 0) (some "k") []
    [HObj.msg mW1] [Event.cacheLookup 7, Event.fetchSchema 7] [(7, 0)]
    rfl rfl rfl rfl rfl).1 rfl
  rw [h.1]
  rfl

/-- Counterexample to C4: when the handler-supplied headers already contain a
processed_topic key, the dict literal of consumer.py line 121 lets the
handler-supplied value overwrite the injected inbound topic: here the record
arrives on topic user-feedback but the published processed_topic value is
the handler-supplied x. -/
theorem processed_topic_overridden_cex :
    Event.send mW4 [("processed_topic", "x")] ∈ (processRecord envW4 bW1 [] rW1).1
  ∧ rW1.topic = "user-feedback"
  ∧ alookup [("processed_topic", "x")] "processed_topic" = some "x"
  ∧ (some "x" : Option String) ≠ some rW1.topic := by
  refine ⟨by decide, rfl, rfl, by decide⟩

/-- C4 (amended): every message republished by the consumer loop is sent with
the merged headers, which always contain a processed_topic entry; its value
is the inbound topic when the handler-supplied headers contain no
processed_topic key, and otherwise the handler-supplied value, which takes
precedence over the injected one. -/
theorem processed_topic_header_merge (env : Env) (b : List (String × AnnType))
    (c : Cache) (r : Record) (m : KafkaMessage) (hd : List (String × String))
    (hx : Event.send m hd ∈ (processRecord env b c r).1) :
    hd = mergeHeaders r.topic m.headers
  ∧ alookup hd "processed_topic" =
      some ((lastVal m.headers "processed_topic").getD r.topic) := by
  have h1 := processRecord_send_mem env b c r m hd hx
  exact ⟨h1, by rw [h1]; exact mergeHeaders_lookup r.topic m.headers⟩

/-- Witness for the amended C4 at the concrete overriding run. -/
theorem processed_topic_header_merge_witness :
    alookup [("processed_topic", "x")] "processed_topic" =
      some ((lastVal mW4.headers "processed_topic").getD rW1.topic) :=
  (processed_topic_header_merge envW4 bW1 [] rW1 mW4 [("processed_topic", "x")]
    (by decide)).2

/-- C6: with a registered handler, broker configuration present, and the
paused-set guard passing, consume_messages drives the loop over every
delivered record; and for a record whose binding lookup, key decode
(UTF-8), value decode (wire codec and schema cache against the topic's
bound type) and header decode succeed, the processing trace contains the
handler invocation with exactly the decoded value, key, headers and the
record's topic. -/
theorem record_decode_dispatch (env : Env) (decl : HandlerDecl)
    (bindings : List (String × AnnType)) (records : List Record) (cache : Cache)
    (r : Record) (ann : AnnType) (v : Option AvroObj) (k : Option String)
    (hs : List (String × String)) (evs : List Event) (c2 : Cache)
    (hd : extract_value_bindings decl = .ok bindings)
    (hb : env.kafkaBrokers.isSome = true)
    (hp : env.pausedNonempty = true)
    (hl : alookup bindings r.topic = some ann)
    (hk : decodeKey env r.key = .ok k)
    (hv : value_deserializer env cache r.value ann = (evs, c2, .ok v))
    (hh : decodeHeaders env r.headers = .ok hs) :
    (consume_messages env decl cache records).1 =
      (get_consumer env (bindings.map Prod.fst)).1 ++ get_producer env
        ++ (runLoop env bindings cache records).1
  ∧ Event.handlerCall v k hs r.topic ∈ (processRecord env bindings cache r).1 := by
  constructor
  · rcases hgc : get_consumer env (bindings.map Prod.fst) with ⟨cevs, st⟩
    unfold consume_messages
    rw [hd]; dsimp only
    rw [hgc]; dsimp only
    rw [hp]
    simp
  · rcases hc : env.callback v k hs r.topic with e1 | objs
    · have htb : tryBody env bindings cache r =
          (evs ++ [Event.handlerCall v k hs r.topic], c2, .error e1) := by
        unfold tryBody
        rw [hl]; dsimp only
        rw [hk]; dsimp only
        rw [hv]; dsimp only
        rw [hh]; dsimp only
        rw [hc]
      unfold processRecord
      rw [htb]; dsimp only
      by_cases hrec : recoverable e1
      · rw [if_pos hrec]; simp
      · rw [if_neg hrec]; simp
    · rcases hpl : publishLoop env r.topic objs with ⟨sevs, e2 | u⟩
      · have htb : tryBody env bindings cache r =
            (evs ++ Event.handlerCall v k hs r.topic :: sevs, c2, .error e2) := by
          unfold tryBody
          rw [hl]; dsimp only
          rw [hk]; dsimp only
          rw [hv]; dsimp only
          rw [hh]; dsimp only
          rw [hc]; dsimp only
          rw [hpl]
        unfold processRecord
        rw [htb]; dsimp only
        by_cases hrec : recoverable e2
        · rw [if_pos hrec]; simp
        · rw [if_neg hrec]; simp
      · cases u
        have htb : tryBody env bindings cache r =
            (evs ++ Event.handlerCall v k hs r.topic :: sevs ++ [Event.commit], c2, .ok ()) := by
          unfold tryBody
          rw [hl]; dsimp only
          rw [hk]; dsimp only
          rw [hv]; dsimp only
          rw [hh]; dsimp only
          rw [hc]; dsimp only
          rw [hpl]
        unfold processRecord
        rw [htb]; dsimp only
        simp

/-- Witness for C6 on the happy-path record. -/
theorem record_decode_dispatch_witness :
    Event.handlerCall (some 0) (some "k") [] "user-feedback" ∈
      (processRecord envW1 bW1 [] rW1).1 :=
  (record_decode_dispatch envW1 declW1 bW1 [rW1] [] rW1 0 (some 0) (some "k") []
    [Event.cacheLookup 7, Event.fetchSchema 7] [(7, 0)]
    rfl rfl rfl rfl rfl rfl rfl).2

theorem alookup_append {α β : Type} [DecidableEq α] (l1 l2 : List (α × β)) (k : α) :
    alookup (l1 ++ l2) k =
      match alookup l1 k with
      | some v => some v
      | none => alookup l2 k := by
  induction l1 with
  | nil => rfl
  | cons p t ih =>
    show (if p.1 = k then some p.2 else alookup (t ++ l2) k) =
      match (if p.1 = k then some p.2 else alookup t k) with
      | some v => some v
      | none => alookup l2 k
    by_cases h : p.1 = k
    · rw [if_pos h, if_pos h]
    · rw [if_neg h, if_neg h]
      exact ih

theorem pe_error_only : ∀ (ts : List TypeDecl) (acc : List (String × AnnType)) (e : PyError),
    ts.foldlM pick_event acc = .error e → e = .duplicateTopicError := by
  intro ts
  induction ts with
  | nil => intro acc e h; exact Except.noConfusion h
  | cons t ts ih =>
    intro acc e h
    rw [List.foldlM_cons] at h
    rcases hpe : pick_event acc t with e1 | acc1
    · rw [hpe] at h
      have h2 : e1 = e := by
        have h3 : (Except.error e1 : Except PyError (List (String × AnnType))) = .error e := h
        injection h3
      subst h2
      cases t with
      | nonAvro => exact Except.noConfusion hpe
      | avroT n a =>
        simp only [pick_event] at hpe
        by_cases hsk : (alookup acc (to_kebab_case n)).isSome = true
        · rw [if_pos hsk] at hpe
          injection hpe with h4
          exact h4.symm
        · rw [if_neg hsk] at hpe
          exact Except.noConfusion hpe
    · rw [hpe] at h
      exact ih acc1 e h

theorem pe_mem_preserved : ∀ (ts : List TypeDecl) (acc bs : List (String × AnnType)) (T : String),
    ts.foldlM pick_event acc = .ok bs → (alookup acc T).isSome = true →
      (alookup bs T).isSome = true := by
  intro ts
  induction ts with
  | nil =>
    intro acc bs T h hm
    have h2 : acc = bs := by
      have h3 : (Except.ok acc : Except PyError (List (String × AnnType))) = .ok bs := h
      injection h3
    rw [← h2]
    exact hm
  | cons t ts ih =>
    intro acc bs T h hm
    rw [List.foldlM_cons] at h
    rcases hpe : pick_event acc t with e1 | acc1
    · rw [hpe] at h
      exact Except.noConfusion h
    · rw [hpe] at h
      refine ih acc1 bs T h ?_
      cases t with
      | nonAvro =>
        have h2 : acc = acc1 := by injection hpe
        rw [← h2]; exact hm
      | avroT n a =>
        simp only [pick_event] at hpe
        by_cases hsk : (alookup acc (to_kebab_case n)).isSome = true
        · rw [if_pos hsk] at hpe
          exact Except.noConfusion hpe
        · rw [if_neg hsk] at hpe
          have h2 : acc ++ [(to_kebab_case n, a)] = acc1 := by injection hpe
          rw [← h2, alookup_append]
          rcases h3 : alookup acc T with _ | v
          · rw [h3] at hm; simp at hm
          · simp

theorem pe_after_avro (acc acc1 : List (String × AnnType)) (n : String) (a : AnnType)
    (h : pick_event acc (TypeDecl.avroT n a) = .ok acc1) :
    (alookup acc1 (to_kebab_case n)).isSome = true := by
  simp only [pick_event] at h
  by_cases hsk : (alookup acc (to_kebab_case n)).isSome = true
  · rw [if_pos hsk] at h
    exact Except.noConfusion h
  · rw [if_neg hsk] at h
    have h2 : acc ++ [(to_kebab_case n, a)] = acc1 := by injection h
    have h3 : alookup acc (to_kebab_case n) = none := by
      rcases h4 : alookup acc (to_kebab_case n) with _ | v
      · rfl
      · rw [h4] at hsk; simp at hsk
    rw [← h2, alookup_append, h3]
    simp [alookup]

theorem pe_split : ∀ (xs ys : List TypeDecl) (acc : List (String × AnnType)),
    (xs ++ ys).foldlM pick_event acc =
      (xs.foldlM pick_event acc) >>= fun a => ys.foldlM pick_event a := by
  intro xs
  induction xs with
  | nil => intro ys acc; rfl
  | cons x xs ih =>
    intro ys acc
    rw [List.cons_append, List.foldlM_cons, List.foldlM_cons]
    rcases hpe : pick_event acc x with e | acc1
    · rfl
    · exact ih ys acc1

/-- C7: when a handler's declared value alternatives contain two
schema-bearing types deriving the same kebab-case topic, registration fails
with the duplicate-topic error, and consume_messages emits no event at all —
in particular no subscription to the transport is attempted. -/
theorem duplicate_topic_before_subscribe (env : Env) (decl : HandlerDecl) (cache : Cache)
    (records : List Record) (l1 l2 l3 : List TypeDecl) (n1 n2 : String) (a1 a2 : AnnType)
    (hts : decl.valueTypes = l1 ++ TypeDecl.avroT n1 a1 :: (l2 ++ TypeDecl.avroT n2 a2 :: l3))
    (hkeb : to_kebab_case n1 = to_kebab_case n2) :
    extract_value_bindings decl = .error .duplicateTopicError
  ∧ (consume_messages env decl cache records).1 = []
  ∧ (∀ sk, Event.subscribe sk ∉ (consume_messages env decl cache records).1) := by
  have hext : extract_value_bindings decl = .error .duplicateTopicError := by
    rcases hres : extract_value_bindings decl with e | bs
    · have he := pe_error_only decl.valueTypes [] e
        (by unfold extract_value_bindings at hres; exact hres)
      rw [he]
    · exfalso
      unfold extract_value_bindings at hres
      rw [hts, pe_split] at hres
      rcases h1 : List.foldlM pick_event [] l1 with e | acc1
      · rw [h1] at hres
        exact Except.noConfusion hres
      · rw [h1] at hres
        change (TypeDecl.avroT n1 a1 :: (l2 ++ TypeDecl.avroT n2 a2 :: l3)).foldlM
          pick_event acc1 = Except.ok bs at hres
        rw [List.foldlM_cons] at hres
        rcases h2 : pick_event acc1 (TypeDecl.avroT n1 a1) with e | acc2
        · rw [h2] at hres
          exact Except.noConfusion hres
        · rw [h2] at hres
          have hT : (alookup acc2 (to_kebab_case n1)).isSome = true :=
            pe_after_avro acc1 acc2 n1 a1 h2
          change (l2 ++ TypeDecl.avroT n2 a2 :: l3).foldlM pick_event acc2 =
            Except.ok bs at hres
          rw [pe_split] at hres
          rcases h3 : List.foldlM pick_event acc2 l2 with e | acc3
          · rw [h3] at hres
            exact Except.noConfusion hres
          · rw [h3] at hres
            have hT3 : (alookup acc3 (to_kebab_case n1)).isSome = true :=
              pe_mem_preserved l2 acc2 acc3 (to_kebab_case n1) h3 hT
            change (TypeDecl.avroT n2 a2 :: l3).foldlM pick_event acc3 =
              Except.ok bs at hres
            rw [List.foldlM_cons] at hres
            have h4 : pick_event acc3 (TypeDecl.avroT n2 a2) = .error .duplicateTopicError := by
              simp only [pick_event]
              rw [← hkeb]
              rw [if_pos hT3]
            rw [h4] at hres
            exact Except.noConfusion hres
  refine ⟨hext, ?_, ?_⟩
  · unfold consume_messages
    rw [hext]
  · intro sk
    unfold consume_messages
    rw [hext]
    simp

/-- Witness for C7 on a declaration with two alternatives both named
UserFeedback. -/
theorem duplicate_topic_before_subscribe_witness :
    extract_value_bindings declW7 = .error .duplicateTopicError
  ∧ (consume_messages envW1 declW7 [] []).1 = [] := by
  have h := duplicate_topic_before_subscribe envW1 declW7 [] [] [] [] []
    "UserFeedback" "UserFeedback" 1 2 rfl rfl
  exact ⟨h.1, h.2.1⟩


/-- Counterexample to C8: a record with a perfectly decodable key and a
tombstone value, but a header value that is not valid UTF-8 — a decode
failure that is neither a bad magic byte nor a key decode failure — is
nevertheless warned and skipped (no rewind, no delay), where the claim
assigns every such failure to the error-log and rewind path. -/
theorem header_decode_skip_cex :
    decodeKey envW2 rW2.key = .ok (some "k")
  ∧ rW2.value = none
  ∧ (tryBody envW2 bW1 [] rW2).2.2 = .error .unicodeDecodeError
  ∧ processRecord envW2 bW1 [] rW2 = ([Event.logWarning], [])
  ∧ Event.seekToCommitted ∉ (processRecord envW2 bW1 [] rW2).1
  ∧ Event.logError ∉ (processRecord envW2 bW1 [] rW2).1 :=
  ⟨rfl, rfl, rfl, rfl, by decide, by decide⟩

theorem runLoop_cons (env : Env) (b : List (String × AnnType)) (c : Cache)
    (r : Record) (rs : List Record) :
    runLoop env b c (r :: rs) =
      ((processRecord env b c r).1 ++ (runLoop env b (processRecord env b c r).2 rs).1,
       (runLoop env b (processRecord env b c r).2 rs).2) := by
  simp only [runLoop]

/-- C8 (amended): for every record whose try-block raises, the exception
class decides the path: a MagicByteError or UnicodeDecodeError (raised by
the magic-byte check, the key decode, or the header-value decode) is logged
as a warning and the record is skipped with no rewind, no delay and no
commit; any other exception is logged as an error, the position is rewound
to the last committed offset and a fixed delay is waited; in both cases the
loop goes on to the next delivered record, so no error terminates it. -/
theorem error_classification (env : Env) (b : List (String × AnnType)) (c : Cache)
    (r : Record) (pre : List Event) (c2 : Cache) (e : PyError) (rs : List Record)
    (ht : tryBody env b c r = (pre, c2, .error e)) :
    processRecord env b c r =
      (pre ++ (if recoverable e then [Event.logWarning]
               else [Event.logError, Event.seekToCommitted, Event.sleepDelay]), c2)
  ∧ Event.commit ∉ (processRecord env b c r).1
  ∧ (recoverable e = true → Event.seekToCommitted ∉ (processRecord env b c r).1
      ∧ Event.sleepDelay ∉ (processRecord env b c r).1
      ∧ Event.logWarning ∈ (processRecord env b c r).1)
  ∧ (recoverable e = false → Event.logError ∈ (processRecord env b c r).1
      ∧ Event.seekToCommitted ∈ (processRecord env b c r).1
      ∧ Event.sleepDelay ∈ (processRecord env b c r).1)
  ∧ (runLoop env b c (r :: rs)).1 =
      (processRecord env b c r).1 ++ (runLoop env b c2 rs).1 := by
  have hbody := tryBody_error_events env b c r pre c2 e ht
  have hnc : Event.commit ∉ pre := fun hmem => by
    have := hbody _ hmem; simp [bodyEv] at this
  have hnw : Event.logWarning ∉ pre := fun hmem => by
    have := hbody _ hmem; simp [bodyEv] at this
  have hns : Event.seekToCommitted ∉ pre := fun hmem => by
    have := hbody _ hmem; simp [bodyEv] at this
  have hnd : Event.sleepDelay ∉ pre := fun hmem => by
    have := hbody _ hmem; simp [bodyEv] at this
  have hne : Event.logError ∉ pre := fun hmem => by
    have := hbody _ hmem; simp [bodyEv] at this
  have hpr : processRecord env b c r =
      (pre ++ (if recoverable e then [Event.logWarning]
               else [Event.logError, Event.seekToCommitted, Event.sleepDelay]), c2) := by
    unfold processRecord
    rw [ht]
    dsimp only
    by_cases hrec : recoverable e
    · rw [if_pos hrec, if_pos hrec]
    · rw [if_neg hrec, if_neg hrec]
  refine ⟨hpr, ?_, ?_, ?_, ?_⟩
  · rw [hpr]; dsimp only
    intro hmem
    rcases List.mem_append.mp hmem with h1 | h2
    · exact hnc h1
    · by_cases hrec : recoverable e
      · rw [if_pos hrec] at h2; simp at h2
      · rw [if_neg hrec] at h2; simp at h2
  · intro hrec
    rw [hpr]; dsimp only
    rw [if_pos hrec]
    refine ⟨?_, ?_, ?_⟩
    · intro hmem
      rcases List.mem_append.mp hmem with h1 | h2
      · exact hns h1
      · simp at h2
    · intro hmem
      rcases List.mem_append.mp hmem with h1 | h2
      · exact hnd h1
      · simp at h2
    · exact List.mem_append.mpr (Or.inr (by simp))
  · intro hrec
    rw [hpr]; dsimp only
    rw [if_neg (by rw [hrec]; exact Bool.false_ne_true)]
    refine ⟨?_, ?_, ?_⟩
    · exact List.mem_append.mpr (Or.inr (by simp))
    · exact List.mem_append.mpr (Or.inr (by simp))
    · exact List.mem_append.mpr (Or.inr (by simp))
  · rw [runLoop_cons, hpr]

/-- Witness for the amended C8 at the header-decode failure. -/
theorem error_classification_witness :
    processRecord envW2 bW1 [] rW2 = ([Event.logWarning], [])
  ∧ Event.seekToCommitted ∉ (processRecord envW2 bW1 [] rW2).1 := by
  have h := error_classification envW2 bW1 [] rW2 [] [] .unicodeDecodeError [] rfl
  exact ⟨by rw [h.1]; rfl, (h.2.2.1 rfl).1⟩

/-- C10: a record arriving on a topic with no handler binding raises the
KeyError of the binding lookup, which is treated as a processing failure:
the trace is exactly the error log, the rewind to the last committed offset
and the fixed delay — no commit, no skip — and since the position rewinds to
the committed offset the very same record is re-delivered on the next poll,
so the loop state is a fixed point and the record is retried forever. -/
theorem unbound_topic_retry (env : Env) (bindings : List (String × AnnType))
    (log : List Record) (s : LoopState) (r : Record)
    (h1 : log.get? s.pos = some r)
    (h2 : alookup bindings r.topic = none)
    (h3 : s.committed = s.pos) :
    loopStep env bindings log s =
      ([Event.logError, Event.seekToCommitted, Event.sleepDelay], s)
  ∧ (∀ n, (stepState env bindings log)^[n] s = s)
  ∧ Event.commit ∉ (loopStep env bindings log s).1 := by
  have htb : tryBody env bindings s.cache r = ([], s.cache, .error .keyError) := by
    unfold tryBody
    rw [h2]
  have hpr : processRecord env bindings s.cache r =
      ([Event.logError, Event.seekToCommitted, Event.sleepDelay], s.cache) := by
    unfold processRecord
    rw [htb]
    rfl
  have hls : loopStep env bindings log s =
      ([Event.logError, Event.seekToCommitted, Event.sleepDelay], s) := by
    unfold loopStep
    rw [h1]; dsimp only
    rw [hpr]; dsimp only
    rw [if_neg (by decide), if_pos (by decide)]
    rcases s with ⟨sc, sp, scache⟩
    dsimp only at h3
    subst h3
    rfl
  refine ⟨hls, ?_, by rw [hls]; dsimp only; decide⟩
  intro n
  have hfix : stepState env bindings log s = s := by
    unfold stepState
    rw [hls]
  exact Function.iterate_fixed hfix n

/-- Witness for C10 on a concrete unbound record with an empty binding
table. -/
theorem unbound_topic_retry_witness :
    loopStep envW1 [] [rW10] ⟨0, 0, []⟩ =
      ([Event.logError, Event.seekToCommitted, Event.sleepDelay], ⟨0, 0, []⟩)
  ∧ (stepState envW1 [] [rW10])^[5] ⟨0, 0, []⟩ = ⟨0, 0, []⟩ := by
  have h := unbound_topic_retry envW1 [] [rW10] ⟨0, 0, []⟩ rW10 rfl rfl rfl
  exact ⟨h.1, h.2.1 5⟩

end KafkaHelper
